import Mathlib

/-!
Verification of the data-acquisition, caching and normalization layer of the
Pokédex single-page application (services/api.ts, MainView.tsx).

JavaScript objects produced and consumed by the normalizer are modelled by the
JSON-like value type `JVal`; `null` covers both JavaScript `null` and
`undefined` (the strip-empty pass treats them identically via `v == null`).
Machine numbers are modelled as `Nat`/`Int`; every numeric field that the code
touches holds a non-negative integer from the remote API.
-/

/-- JSON-like value: the shape of the JavaScript objects handled by
`stripEmpty` and produced by `mapPokemonToCard`. -/
inductive JVal where
  | null
  | str (s : String)
  | num (n : Nat)
  | bool (b : Bool)
  | arr (xs : List JVal)
  | obj (fs : List (String × JVal))

/-- Embeds `isEmptyValue` from services/api.ts: true on `null`/`undefined`,
the empty string, an empty array, and an object with no keys. -/
def isEmptyValue : JVal → Bool
  | .null => true
  | .str s => s = ""
  | .arr xs => xs.isEmpty
  | .obj fs => fs.isEmpty
  | _ => false

/-- True when the value is a JavaScript array. -/
def JVal.isArr : JVal → Bool
  | .arr _ => true
  | _ => false

mutual

/-- Embeds the `Object.keys(obj).forEach` body of `stripEmpty` applied to a
genuine (non-array) object: each field value is rewritten, and fields whose
rewritten value is empty are deleted. -/
def stripFields : List (String × JVal) → List (String × JVal)
  | [] => []
  | (k, v) :: rest =>
    (match v with
     | .arr xs =>
       let ys := filterElems xs
       if ys.isEmpty then [] else [(k, JVal.arr ys)]
     | .obj fs =>
       let fs' := stripFields fs
       if fs'.isEmpty then [] else [(k, JVal.obj fs')]
     | v => if isEmptyValue v then [] else [(k, v)]) ++ stripFields rest

/-- Embeds `v.map(item => item && typeof item === 'object' ? stripEmpty(item)
: item).filter(item => !isEmptyValue(item))`, the treatment of an array that
is the direct value of an object key. -/
def filterElems : List JVal → List JVal
  | [] => []
  | x :: rest =>
    let x' := stripItem x
    (if isEmptyValue x' then [] else [x']) ++ filterElems rest

/-- Embeds the per-item map step: objects and arrays are recursively
stripped (`item && typeof item === 'object'`), scalars pass through. -/
def stripItem : JVal → JVal
  | .obj fs => JVal.obj (stripFields fs)
  | .arr xs => JVal.arr (stripElemsInPlace xs)
  | v => v

/-- Embeds `stripEmpty` invoked on an array (`Object.keys` over indices):
`delete obj[k]` on an array leaves a hole that reads as `undefined`, modelled
here by `JVal.null` staying in place. -/
def stripElemsInPlace : List JVal → List JVal
  | [] => []
  | v :: rest =>
    (match v with
     | .arr xs =>
       let ys := filterElems xs
       if ys.isEmpty then JVal.null else JVal.arr ys
     | .obj fs =>
       let fs' := stripFields fs
       if fs'.isEmpty then JVal.null else JVal.obj fs'
     | v => if isEmptyValue v then JVal.null else v) :: stripElemsInPlace rest

end

/-- Embeds the exported `stripEmpty` entry point (the code only ever calls it
on objects and, recursively, on arrays). -/
def stripEmpty : JVal → JVal
  | .obj fs => JVal.obj (stripFields fs)
  | .arr xs => JVal.arr (stripElemsInPlace xs)
  | v => v

mutual

/-- No attribute (object field) and no array element is an empty value, at
any nesting depth. -/
def noEmpty : JVal → Bool
  | .obj fs => noEmptyF fs
  | .arr xs => noEmptyL xs
  | _ => true

/-- Field-list form of `noEmpty`. -/
def noEmptyF : List (String × JVal) → Bool
  | [] => true
  | (_, v) :: rest => (!isEmptyValue v && noEmpty v) && noEmptyF rest

/-- Element-list form of `noEmpty`. -/
def noEmptyL : List JVal → Bool
  | [] => true
  | x :: rest => (!isEmptyValue x && noEmpty x) && noEmptyL rest

end

mutual

/-- No array has an array as a direct element (true of every value the
normalizer builds; nested arrays only occur behind object fields). -/
def noArrInArr : JVal → Bool
  | .obj fs => noArrInArrF fs
  | .arr xs => noArrInArrL xs
  | _ => true

/-- Field-list form of `noArrInArr`. -/
def noArrInArrF : List (String × JVal) → Bool
  | [] => true
  | (_, v) :: rest => noArrInArr v && noArrInArrF rest

/-- Element-list form of `noArrInArr`: elements are additionally required
not to be arrays themselves. -/
def noArrInArrL : List JVal → Bool
  | [] => true
  | x :: rest => (!x.isArr && noArrInArr x) && noArrInArrL rest

end

example : stripEmpty (JVal.obj [("a", JVal.str ""), ("b", JVal.num 3)])
    = JVal.obj [("b", JVal.num 3)] := rfl

example : stripEmpty (JVal.obj [("a", JVal.arr [JVal.obj [("x", JVal.arr [])]])])
    = JVal.obj [] := rfl

/-- One entry of the remote stat list (`PokeApiStat` in services/api.ts):
`base_stat` plus the stat's name (`stat.name`). -/
structure PokeApiStat where
  base_stat : Nat
  stat_name : String

/-- One entry of the remote type-slot list (`PokeApiTypeSlot`). -/
structure PokeApiTypeSlot where
  slot : Nat
  type_name : String

/-- One entry of the remote ability list (`PokeApiAbility`): the ability's
name (`ability.name`, empty when missing) and the hidden flag. -/
structure PokeApiAbility where
  ability_name : String
  is_hidden : Bool

/-- One version-group entry of a move (`PokeApiMoveVersionDetail`); the two
nested names are empty strings when the remote record lacks them. -/
structure PokeApiMoveVersionDetail where
  level_learned_at : Nat
  move_learn_method_name : String
  version_group_name : String

/-- One entry of the remote move list (`PokeApiMove`). -/
structure PokeApiMove where
  move_name : String
  version_group_details : List PokeApiMoveVersionDetail

/-- The sprite URLs used by the normalizer (`PokeApiSprites`):
`front_default` and `other?.['official-artwork']?.front_default`, each
`none` when null/absent. -/
structure PokeApiSprites where
  front_default : Option String
  official_artwork : Option String

/-- The raw per-entity detail record (`PokeApiPokemon`). -/
structure PokeApiPokemon where
  id : Nat
  name : String
  height : Nat
  weight : Nat
  sprites : PokeApiSprites
  stats : List PokeApiStat
  types : List PokeApiTypeSlot
  abilities : List PokeApiAbility
  moves : List PokeApiMove

/-- JavaScript `a || b` on an optional string: `null`/`undefined` and the
empty string are falsy and fall through to `b`. -/
def jsOrStr (a : Option String) (b : String) : String :=
  match a with
  | some s => if s = "" then b else s
  | none => b

/-- JavaScript `part.charAt(0).toUpperCase() + part.slice(1)`. -/
def capitalizeFirst (s : String) : String :=
  match s.data with
  | [] => ""
  | c :: cs => String.mk (c.toUpper :: cs)

/-- Embeds `toTitleCase`: split on hyphen/underscore/whitespace, drop empty
parts (`filter(Boolean)`), capitalize each part, join with a space. -/
def toTitleCase (value : String) : String :=
  String.intercalate (" ")
    (((value.split (fun c => c == '-' || c == '_' || c.isWhitespace)).filter
      (fun part => part != "")).map capitalizeFirst)

/-- Embeds `sumStats`: `stats.reduce((total, stat) => total + stat.base_stat, 0)`. -/
def sumStats (stats : List PokeApiStat) : Nat :=
  stats.foldl (fun total stat => total + stat.base_stat) 0

/-- Embeds `getStat`: the `base_stat` of the first stat with the given name,
defaulting to 0 (`?.base_stat ?? 0`). -/
def getStat (stats : List PokeApiStat) (name : String) : Nat :=
  ((stats.find? (fun stat => stat.stat_name == name)).map
    (fun stat => stat.base_stat)).getD 0

/-- Embeds `getRarityFromStats`: descending thresholds over the stat sum. -/
def getRarityFromStats (stats : List PokeApiStat) : String :=
  let total := sumStats stats
  if total ≥ 600 then ("Legendary")
  else if total ≥ 520 then ("Epic")
  else if total ≥ 450 then ("Rare")
  else if total ≥ 380 then ("Uncommon")
  else ("Common")

/-- Embeds the `GenerationRange` record of services/api.ts. -/
structure GenerationRange where
  id : String
  displayName : String
  setCode : String
  maxDex : Nat
deriving DecidableEq

/-- JavaScript `Number.MAX_SAFE_INTEGER`. -/
def MAX_SAFE_INTEGER : Nat := 9007199254740991

/-- Embeds the static `GENERATION_RANGES` table, ascending in `maxDex`. -/
def GENERATION_RANGES : List GenerationRange :=
  [⟨"generation-i", "Generation I", "GEN1", 151⟩,
   ⟨"generation-ii", "Generation II", "GEN2", 251⟩,
   ⟨"generation-iii", "Generation III", "GEN3", 386⟩,
   ⟨"generation-iv", "Generation IV", "GEN4", 493⟩,
   ⟨"generation-v", "Generation V", "GEN5", 649⟩,
   ⟨"generation-vi", "Generation VI", "GEN6", 721⟩,
   ⟨"generation-vii", "Generation VII", "GEN7", 809⟩,
   ⟨"generation-viii", "Generation VIII", "GEN8", 905⟩,
   ⟨"generation-ix", "Generation IX", "GEN9", MAX_SAFE_INTEGER⟩]

/-- Embeds `getGenerationByDexId`: the first range whose `maxDex` bounds the
identifier, defaulting to the table's last entry (`?? RANGES[len - 1]`). -/
def getGenerationByDexId (dexId : Nat) : GenerationRange :=
  (GENERATION_RANGES.find? (fun range => decide (dexId ≤ range.maxDex))).getD
    (GENERATION_RANGES.getLastD ⟨"", "", "", 0⟩)

/-- The ability records built by `mapPokemonToCard`. -/
structure AbilityInfo where
  name : String
  hidden : Bool

/-- The base-stat records built by `mapPokemonToCard`. -/
structure BaseStatInfo where
  name : String
  value : Nat

/-- The top-move summaries built by `mapPokemonToCard` (optional fields are
written as `undefined` when absent). -/
structure MoveSummaryInfo where
  name : String
  levelLearnedAt : Option Nat
  learnMethod : Option String
  versionGroup : Option String

/-- The synthetic attack records built by `mapPokemonToCard` (the `text`
field is only set when at least one note exists). -/
structure AttackInfo where
  name : String
  cost : List String
  convertedEnergyCost : Nat
  text : Option String

/-- JavaScript global replace of every hyphen and underscore with a space. -/
def replaceDashUnderscore (s : String) : String :=
  s.map (fun c => if c == '-' || c == '_' then ' ' else c)

/-- JavaScript global replace of every hyphen with a space. -/
def replaceDash (s : String) : String :=
  s.map (fun c => if c == '-' then ' ' else c)

/-- The version detail chosen for a move: the first entry with a positive
learned-level, else the first entry (`find(...) ?? details[0]`). -/
def pickDetail (move : PokeApiMove) : Option PokeApiMoveVersionDetail :=
  match move.version_group_details.find?
      (fun entry => decide (entry.level_learned_at > 0)) with
  | some d => some d
  | none => move.version_group_details.head?

/-- The hard-coded official-artwork fallback URL for an identifier. -/
def officialArtUrl (id : Nat) : String :=
  ("https://raw.githubusercontent.com/PokeAPI/sprites/master/sprites/pokemon/other/official-artwork/")
    ++ toString id ++ (".png")

/-- Embeds `officialArt`: the official-artwork sprite, with the raw GitHub
URL as truthiness fallback. -/
def officialArt (p : PokeApiPokemon) : String :=
  jsOrStr p.sprites.official_artwork (officialArtUrl p.id)

/-- Embeds `smallSprite`: `front_default || officialArt`. -/
def smallSprite (p : PokeApiPokemon) : String :=
  jsOrStr p.sprites.front_default (officialArt p)

/-- Embeds the `types` local: every type-slot name title-cased. -/
def cardTypes (p : PokeApiPokemon) : List String :=
  p.types.map (fun typeSlot => toTitleCase typeSlot.type_name)

/-- Embeds `retreatCost`: `Math.max(types.length, 1)`. -/
def cardRetreatCost (p : PokeApiPokemon) : Nat :=
  max (cardTypes p).length 1

/-- Embeds the `abilities` local: entries with a non-empty name, title-cased
and flagged hidden. -/
def cardAbilities (p : PokeApiPokemon) : List AbilityInfo :=
  (p.abilities.filter (fun entry => entry.ability_name != "")).map
    (fun entry => ⟨toTitleCase entry.ability_name, entry.is_hidden⟩)

/-- Embeds `abilitySummary`: all abilities joined with a comma, hidden ones
suffixed, `undefined` when there are none. -/
def abilitySummary (p : PokeApiPokemon) : Option String :=
  let abilities := cardAbilities p
  if abilities.isEmpty then none
  else some (String.intercalate (", ")
    (abilities.map (fun a => if a.hidden then a.name ++ (" (Hidden)") else a.name)))

/-- Embeds the `baseStats` local: every stat renamed (dashes and
underscores to spaces, then title case) with its value. -/
def cardBaseStats (p : PokeApiPokemon) : List BaseStatInfo :=
  p.stats.map (fun stat =>
    ⟨toTitleCase (replaceDashUnderscore stat.stat_name), stat.base_stat⟩)

/-- Embeds `statsSummary`: name-value pairs joined with a bullet,
`undefined` when the stat list is empty. -/
def statsSummary (p : PokeApiPokemon) : Option String :=
  let baseStats := cardBaseStats p
  if baseStats.length > 0 then
    some (String.intercalate (" • ")
      (baseStats.map (fun stat => stat.name ++ (" ") ++ toString stat.value)))
  else none

/-- Embeds the `topMoves` local: the first 6 moves with a non-empty name,
each annotated from its chosen version detail (`0`, like a missing detail,
becomes `undefined` via `|| undefined`). -/
def topMoves (p : PokeApiPokemon) : List MoveSummaryInfo :=
  ((p.moves.filter (fun m => m.move_name != "")).take 6).map (fun move =>
    let detail := pickDetail move
    { name := toTitleCase move.move_name
      levelLearnedAt :=
        match detail with
        | some d => if d.level_learned_at = 0 then none else some d.level_learned_at
        | none => none
      learnMethod :=
        match detail with
        | some d =>
          if d.move_learn_method_name = "" then none
          else some (toTitleCase (replaceDash d.move_learn_method_name))
        | none => none
      versionGroup :=
        match detail with
        | some d =>
          if d.version_group_name = "" then none
          else some (toTitleCase (replaceDash d.version_group_name))
        | none => none })

/-- One insertion step of `new Map(pairs)`: a repeated key keeps its original
position but its value is overwritten by the later pair. -/
def jsMapInsert (acc : List (String × MoveSummaryInfo)) (m : MoveSummaryInfo) :
    List (String × MoveSummaryInfo) :=
  if acc.any (fun kv => kv.1 == m.name) then
    acc.map (fun kv => if kv.1 == m.name then (kv.1, m) else kv)
  else acc ++ [(m.name, m)]

/-- Embeds `uniqueTopMoves`: `Array.from(new Map(topMoves.map(m => [m.name,
m])).values())`. -/
def uniqueTopMoves (p : PokeApiPokemon) : List MoveSummaryInfo :=
  ((topMoves p).foldl jsMapInsert []).map (fun kv => kv.2)

/-- Embeds `moveNames`: the unique top-move names joined with a comma,
`undefined` when there are none. -/
def moveNames (p : PokeApiPokemon) : Option String :=
  let u := uniqueTopMoves p
  if u.isEmpty then none
  else some (String.intercalate (", ") (u.map (fun m => m.name)))

/-- Decimal rendering of `(n divided by 10).toFixed(1)` for an integer
decimetre/hectogram input, which is exact in this range. -/
def formatTenths (n : Nat) : String :=
  toString (n / 10) ++ (".") ++ toString (n % 10)

/-- Embeds `formattedHeight`: absent when the raw value is zero. -/
def formattedHeight (p : PokeApiPokemon) : Option String :=
  if p.height = 0 then none else some (formatTenths p.height ++ (" m"))

/-- Embeds `formattedWeight`: absent when the raw value is zero. -/
def formattedWeight (p : PokeApiPokemon) : Option String :=
  if p.weight = 0 then none else some (formatTenths p.weight ++ (" kg"))

/-- One conditional `infoText.push` line. -/
def optLine (o : Option String) (pre : String) : List String :=
  match o with
  | some s => [pre ++ s]
  | none => []

/-- Embeds the `infoText` local: summary lines assembled only from the
attributes that are present. -/
def infoText (p : PokeApiPokemon) : List String :=
  optLine (abilitySummary p) ("Abilities: ")
    ++ optLine (formattedHeight p) ("Height: ")
    ++ optLine (formattedWeight p) ("Weight: ")
    ++ optLine (statsSummary p) ("Base Stats: ")
    ++ optLine (moveNames p) ("Moves: ")

/-- Embeds `attackCostTypes`: the entity's own types truncated to two,
defaulting to a single generic token. -/
def attackCostTypes (p : PokeApiPokemon) : List String :=
  let types := cardTypes p
  if types.length > 0 then types.take 2 else [("Colorless")]

/-- The notes list assembled for one attack from its version detail. -/
def attackNotes (detail : Option PokeApiMoveVersionDetail) : List String :=
  match detail with
  | some d =>
    (if d.move_learn_method_name = "" then []
     else [toTitleCase (replaceDash d.move_learn_method_name)])
      ++ (if d.level_learned_at = 0 then []
          else [("Lv ") ++ toString d.level_learned_at])
      ++ (if d.version_group_name = "" then []
          else [toTitleCase (replaceDash d.version_group_name)])
  | none => []

/-- Embeds the `attacks` local: at most 3 named moves become attack records;
a final filter drops records whose title-cased name became empty. -/
def cardAttacks (p : PokeApiPokemon) : List AttackInfo :=
  ((((p.moves.filter (fun m => m.move_name != "")).take 3).map (fun move =>
    let notes := attackNotes (pickDetail move)
    ({ name := toTitleCase move.move_name
       cost := if (attackCostTypes p).length > 0 then attackCostTypes p
               else [("Colorless")]
       convertedEnergyCost := max 1 (attackCostTypes p).length
       text := if notes.isEmpty then none
               else some (String.intercalate (" • ") notes) } : AttackInfo)))
    |>.filter (fun a => a.name != ""))

/-- Encodes an optional string field written via an object literal: absence
is JavaScript `undefined`. -/
def optStrJ (o : Option String) : JVal :=
  match o with
  | some s => JVal.str s
  | none => JVal.null

/-- Encodes an optional numeric field written via an object literal. -/
def optNumJ (o : Option Nat) : JVal :=
  match o with
  | some n => JVal.num n
  | none => JVal.null

/-- Object encoding of an ability record. -/
def abilityJ (a : AbilityInfo) : JVal :=
  JVal.obj [("name", JVal.str a.name), ("hidden", JVal.bool a.hidden)]

/-- Object encoding of a base-stat record. -/
def baseStatJ (s : BaseStatInfo) : JVal :=
  JVal.obj [("name", JVal.str s.name), ("value", JVal.num s.value)]

/-- Object encoding of a top-move summary (absent annotations are written as
`undefined` keys). -/
def topMoveJ (m : MoveSummaryInfo) : JVal :=
  JVal.obj [("name", JVal.str m.name), ("levelLearnedAt", optNumJ m.levelLearnedAt),
    ("learnMethod", optStrJ m.learnMethod), ("versionGroup", optStrJ m.versionGroup)]

/-- Object encoding of an attack record (`text` is only assigned when notes
exist, so the key is absent otherwise). -/
def attackJ (a : AttackInfo) : JVal :=
  JVal.obj ([("name", JVal.str a.name), ("cost", JVal.arr (a.cost.map JVal.str)),
    ("convertedEnergyCost", JVal.num a.convertedEnergyCost)]
    ++ (match a.text with
        | some t => [("text", JVal.str t)]
        | none => []))

/-- A conditional object-literal spread: the key is present only when the
condition holds. -/
def condField (cond : Bool) (k : String) (v : JVal) : List (String × JVal) :=
  if cond then [(k, v)] else []

/-- The field list of the `card` object literal assembled by
`mapPokemonToCard`, in source order, before the strip-empty pass. -/
def cardFields (p : PokeApiPokemon) : List (String × JVal) :=
  let generation := getGenerationByDexId p.id
  let hp := getStat p.stats ("hp")
  let atk := getStat p.stats ("attack")
  let defStat := getStat p.stats ("defense")
  let spAtk := getStat p.stats ("special-attack")
  let spDef := getStat p.stats ("special-defense")
  let spd := getStat p.stats ("speed")
  let attacks := cardAttacks p
  let info := infoText p
  [("id", JVal.str (toString p.id)),
   ("localId", JVal.str (toString p.id)),
   ("name", JVal.str (toTitleCase p.name)),
   ("image", JVal.str (smallSprite p)),
   ("imageHiRes", JVal.str (officialArt p)),
   ("rarity", JVal.str (getRarityFromStats p.stats)),
   ("set", JVal.obj [("id", JVal.str generation.id),
     ("name", JVal.str generation.displayName), ("logo", JVal.str (""))]),
   ("serie", JVal.obj [("id", JVal.str generation.id),
     ("name", JVal.str generation.displayName)]),
   ("category", JVal.str ("Pokemon")),
   ("dexId", JVal.arr [JVal.num p.id]),
   ("types", JVal.arr ((cardTypes p).map JVal.str)),
   ("subtypes", JVal.arr [])]
  ++ condField (hp != 0) ("hp") (JVal.str (toString hp))
  ++ condField (atk != 0) ("attack") (JVal.str (toString atk))
  ++ condField (defStat != 0) ("defense") (JVal.str (toString defStat))
  ++ condField (spAtk != 0) ("specialAttack") (JVal.str (toString spAtk))
  ++ condField (spDef != 0) ("specialDefense") (JVal.str (toString spDef))
  ++ condField (spd != 0) ("speed") (JVal.str (toString spd))
  ++ [("retreatCost", JVal.str (toString (cardRetreatCost p))),
      ("convertedRetreatCost", JVal.num (cardRetreatCost p)),
      ("number", JVal.str (toString p.id)),
      ("series", JVal.str generation.displayName),
      ("setCode", JVal.str generation.setCode)]
  ++ condField (!info.isEmpty) ("text") (JVal.arr (info.map JVal.str))
  ++ condField (!attacks.isEmpty) ("attacks") (JVal.arr (attacks.map attackJ))
  ++ [("weaknesses", JVal.arr []),
      ("resistances", JVal.arr []),
      ("evolvesFrom", JVal.null),
      ("evolvesTo", JVal.arr []),
      ("nationalPokedexNumbers", JVal.arr [JVal.num p.id]),
      ("legal", JVal.obj [("standard", JVal.bool true), ("expanded", JVal.bool true)]),
      ("regulationMark", JVal.str ("")),
      ("images", JVal.obj [("small", JVal.str (smallSprite p)),
        ("large", JVal.str (officialArt p))])]
  ++ condField ((formattedHeight p).isSome) ("height") (optStrJ (formattedHeight p))
  ++ condField ((formattedWeight p).isSome) ("weight") (optStrJ (formattedWeight p))
  ++ condField ((abilitySummary p).isSome) ("abilitiesSummary") (optStrJ (abilitySummary p))
  ++ condField ((statsSummary p).isSome) ("baseStatsSummary") (optStrJ (statsSummary p))
  ++ condField ((moveNames p).isSome) ("movesSummary") (optStrJ (moveNames p))
  ++ condField (!(cardAbilities p).isEmpty) ("abilities")
      (JVal.arr ((cardAbilities p).map abilityJ))
  ++ condField (!(cardBaseStats p).isEmpty) ("baseStats")
      (JVal.arr ((cardBaseStats p).map baseStatJ))
  ++ condField (!(uniqueTopMoves p).isEmpty) ("topMoves")
      (JVal.arr ((uniqueTopMoves p).map topMoveJ))

/-- Embeds `mapPokemonToCard`: assemble the candidate card and apply the
strip-empty pass. -/
def mapPokemonToCard (p : PokeApiPokemon) : JVal :=
  stripEmpty (JVal.obj (cardFields p))


/-- Unfolding lemma for `stripFields` on an array-valued field. -/
theorem stripFields_cons_arr (k : String) (xs : List JVal) (rest : List (String × JVal)) :
    stripFields ((k, JVal.arr xs) :: rest)
      = (if (filterElems xs).isEmpty then [] else [(k, JVal.arr (filterElems xs))])
        ++ stripFields rest := rfl

/-- Unfolding lemma for `stripFields` on an object-valued field. -/
theorem stripFields_cons_obj (k : String) (gs : List (String × JVal)) (rest : List (String × JVal)) :
    stripFields ((k, JVal.obj gs) :: rest)
      = (if (stripFields gs).isEmpty then [] else [(k, JVal.obj (stripFields gs))])
        ++ stripFields rest := rfl

/-- Unfolding lemma for `stripFields` on a null field. -/
theorem stripFields_cons_null (k : String) (rest : List (String × JVal)) :
    stripFields ((k, JVal.null) :: rest) = stripFields rest := rfl

/-- Unfolding lemma for `stripFields` on a string field. -/
theorem stripFields_cons_str (k : String) (s : String) (rest : List (String × JVal)) :
    stripFields ((k, JVal.str s) :: rest)
      = (if isEmptyValue (JVal.str s) then [] else [(k, JVal.str s)]) ++ stripFields rest := rfl

/-- Unfolding lemma for `stripFields` on a numeric field. -/
theorem stripFields_cons_num (k : String) (m : Nat) (rest : List (String × JVal)) :
    stripFields ((k, JVal.num m) :: rest) = (k, JVal.num m) :: stripFields rest := rfl

/-- Unfolding lemma for `stripFields` on a boolean field. -/
theorem stripFields_cons_bool (k : String) (b : Bool) (rest : List (String × JVal)) :
    stripFields ((k, JVal.bool b) :: rest) = (k, JVal.bool b) :: stripFields rest := rfl

/-- Unfolding lemma for `filterElems` on a cons cell. -/
theorem filterElems_cons (x : JVal) (rest : List JVal) :
    filterElems (x :: rest)
      = (if isEmptyValue (stripItem x) then [] else [stripItem x]) ++ filterElems rest := rfl

/-- Unfolding lemma for `stripItem` on an object. -/
theorem stripItem_obj (fs : List (String × JVal)) :
    stripItem (JVal.obj fs) = JVal.obj (stripFields fs) := rfl

/-- Unfolding lemma for `stripItem` on an array. -/
theorem stripItem_arr (xs : List JVal) :
    stripItem (JVal.arr xs) = JVal.arr (stripElemsInPlace xs) := rfl

/-- Unfolding lemma for `stripElemsInPlace` on an array element. -/
theorem stripElemsInPlace_cons_arr (ys : List JVal) (rest : List JVal) :
    stripElemsInPlace (JVal.arr ys :: rest)
      = (if (filterElems ys).isEmpty then JVal.null else JVal.arr (filterElems ys))
        :: stripElemsInPlace rest := rfl

/-- Unfolding lemma for `stripElemsInPlace` on an object element. -/
theorem stripElemsInPlace_cons_obj (gs : List (String × JVal)) (rest : List JVal) :
    stripElemsInPlace (JVal.obj gs :: rest)
      = (if (stripFields gs).isEmpty then JVal.null else JVal.obj (stripFields gs))
        :: stripElemsInPlace rest := rfl

/-- Unfolding lemma for `stripElemsInPlace` on a null element. -/
theorem stripElemsInPlace_cons_null (rest : List JVal) :
    stripElemsInPlace (JVal.null :: rest) = JVal.null :: stripElemsInPlace rest := rfl

/-- Unfolding lemma for `stripElemsInPlace` on a string element. -/
theorem stripElemsInPlace_cons_str (s : String) (rest : List JVal) :
    stripElemsInPlace (JVal.str s :: rest)
      = (if isEmptyValue (JVal.str s) then JVal.null else JVal.str s)
        :: stripElemsInPlace rest := rfl

/-- Unfolding lemma for `stripElemsInPlace` on a numeric element. -/
theorem stripElemsInPlace_cons_num (m : Nat) (rest : List JVal) :
    stripElemsInPlace (JVal.num m :: rest) = JVal.num m :: stripElemsInPlace rest := rfl

/-- Unfolding lemma for `stripElemsInPlace` on a boolean element. -/
theorem stripElemsInPlace_cons_bool (b : Bool) (rest : List JVal) :
    stripElemsInPlace (JVal.bool b :: rest) = JVal.bool b :: stripElemsInPlace rest := rfl

/-- Joint idempotence of the four strip passes, by strong induction on
structural size. -/
theorem strip_idem_all : ∀ n : Nat,
    (∀ fs : List (String × JVal), sizeOf fs ≤ n →
        stripFields (stripFields fs) = stripFields fs) ∧
    (∀ xs : List JVal, sizeOf xs ≤ n →
        filterElems (filterElems xs) = filterElems xs) ∧
    (∀ v : JVal, sizeOf v ≤ n → stripItem (stripItem v) = stripItem v) ∧
    (∀ xs : List JVal, sizeOf xs ≤ n →
        stripElemsInPlace (stripElemsInPlace xs) = stripElemsInPlace xs) := by
  intro n
  induction n using Nat.strong_induction_on with
  | _ n ih =>
    refine ⟨?_, ?_, ?_, ?_⟩
    · intro fs hfs
      match fs with
      | [] => rfl
      | (k, v) :: rest =>
        have hrest : sizeOf rest < n := by
          simp [List.cons.sizeOf_spec] at hfs; omega
        have ihRest := (ih (sizeOf rest) hrest).1 rest (Nat.le_refl _)
        cases v with
        | arr xs =>
          have hxs : sizeOf xs < n := by
            simp [List.cons.sizeOf_spec, Prod.mk.sizeOf_spec] at hfs; omega
          have ihXs := (ih (sizeOf xs) hxs).2.1 xs (Nat.le_refl _)
          by_cases h : (filterElems xs).isEmpty <;>
            simp [stripFields_cons_arr, h, ihRest, ihXs]
        | obj gs =>
          have hgs : sizeOf gs < n := by
            simp [List.cons.sizeOf_spec, Prod.mk.sizeOf_spec] at hfs; omega
          have ihGs := (ih (sizeOf gs) hgs).1 gs (Nat.le_refl _)
          by_cases h : (stripFields gs).isEmpty <;>
            simp [stripFields_cons_obj, h, ihRest, ihGs]
        | null => simp [stripFields_cons_null, ihRest]
        | str s =>
          by_cases h : isEmptyValue (JVal.str s) <;>
            simp [stripFields_cons_str, h, ihRest]
        | num m => simp [stripFields_cons_num, stripFields_cons_num, ihRest]
        | bool b => simp [stripFields_cons_bool, ihRest]
    · intro xs hxs
      match xs with
      | [] => rfl
      | x :: rest =>
        have hrest : sizeOf rest < n := by
          simp [List.cons.sizeOf_spec] at hxs; omega
        have hx : sizeOf x < n := by
          simp [List.cons.sizeOf_spec] at hxs; omega
        have ihRest := (ih (sizeOf rest) hrest).2.1 rest (Nat.le_refl _)
        have ihX := (ih (sizeOf x) hx).2.2.1 x (Nat.le_refl _)
        by_cases h : isEmptyValue (stripItem x) <;>
          simp [filterElems_cons, h, ihRest, ihX]
    · intro v hv
      cases v with
      | obj fs =>
        have hfs : sizeOf fs < n := by
          simp [JVal.obj.sizeOf_spec] at hv; omega
        simp [stripItem_obj, (ih (sizeOf fs) hfs).1 fs (Nat.le_refl _)]
      | arr xs =>
        have hxs : sizeOf xs < n := by
          simp [JVal.arr.sizeOf_spec] at hv; omega
        simp [stripItem_arr, (ih (sizeOf xs) hxs).2.2.2 xs (Nat.le_refl _)]
      | null => rfl
      | str s => rfl
      | num m => rfl
      | bool b => rfl
    · intro xs hxs
      match xs with
      | [] => rfl
      | v :: rest =>
        have hrest : sizeOf rest < n := by
          simp [List.cons.sizeOf_spec] at hxs; omega
        have ihRest := (ih (sizeOf rest) hrest).2.2.2 rest (Nat.le_refl _)
        cases v with
        | arr ys =>
          have hys : sizeOf ys < n := by
            simp [List.cons.sizeOf_spec] at hxs; omega
          have ihYs := (ih (sizeOf ys) hys).2.1 ys (Nat.le_refl _)
          by_cases h : (filterElems ys).isEmpty <;>
            simp [stripElemsInPlace_cons_arr, stripElemsInPlace_cons_null, h, ihRest, ihYs]
        | obj gs =>
          have hgs : sizeOf gs < n := by
            simp [List.cons.sizeOf_spec] at hxs; omega
          have ihGs := (ih (sizeOf gs) hgs).1 gs (Nat.le_refl _)
          by_cases h : (stripFields gs).isEmpty <;>
            simp [stripElemsInPlace_cons_obj, stripElemsInPlace_cons_null, h, ihRest, ihGs]
        | null => simp [stripElemsInPlace_cons_null, ihRest]
        | str s =>
          by_cases h : isEmptyValue (JVal.str s) <;>
            simp [stripElemsInPlace_cons_str, stripElemsInPlace_cons_null, h, ihRest]
        | num m => simp [stripElemsInPlace_cons_num, ihRest]
        | bool b => simp [stripElemsInPlace_cons_bool, ihRest]

/-- Applying the strip-empty pass twice is a no-op on every value. -/
theorem stripEmpty_idem (v : JVal) : stripEmpty (stripEmpty v) = stripEmpty v := by
  cases v with
  | obj fs => simpa [stripEmpty] using
      (strip_idem_all (sizeOf fs)).1 fs (Nat.le_refl _)
  | arr xs => simpa [stripEmpty] using
      (strip_idem_all (sizeOf xs)).2.2.2 xs (Nat.le_refl _)
  | null => rfl
  | str s => rfl
  | num m => rfl
  | bool b => rfl

/-- Unfolding lemma for `noEmptyF` on a cons cell. -/
theorem noEmptyF_cons (k : String) (v : JVal) (rest : List (String × JVal)) :
    noEmptyF ((k, v) :: rest) = ((!isEmptyValue v && noEmpty v) && noEmptyF rest) := rfl

/-- Unfolding lemma for `noEmptyL` on a cons cell. -/
theorem noEmptyL_cons (x : JVal) (rest : List JVal) :
    noEmptyL (x :: rest) = ((!isEmptyValue x && noEmpty x) && noEmptyL rest) := rfl

/-- Unfolding lemma for `noEmpty` on an object. -/
theorem noEmpty_obj (fs : List (String × JVal)) :
    noEmpty (JVal.obj fs) = noEmptyF fs := rfl

/-- Unfolding lemma for `noEmpty` on an array. -/
theorem noEmpty_arr (xs : List JVal) : noEmpty (JVal.arr xs) = noEmptyL xs := rfl

/-- Unfolding lemma for `noArrInArrF` on a cons cell. -/
theorem noArrInArrF_cons (k : String) (v : JVal) (rest : List (String × JVal)) :
    noArrInArrF ((k, v) :: rest) = (noArrInArr v && noArrInArrF rest) := rfl

/-- Unfolding lemma for `noArrInArrL` on a cons cell. -/
theorem noArrInArrL_cons (x : JVal) (rest : List JVal) :
    noArrInArrL (x :: rest) = ((!x.isArr && noArrInArr x) && noArrInArrL rest) := rfl

/-- Unfolding lemma for `noArrInArr` on an object. -/
theorem noArrInArr_obj (fs : List (String × JVal)) :
    noArrInArr (JVal.obj fs) = noArrInArrF fs := rfl

/-- Unfolding lemma for `noArrInArr` on an array. -/
theorem noArrInArr_arr (xs : List JVal) :
    noArrInArr (JVal.arr xs) = noArrInArrL xs := rfl

/-- `noEmptyF` distributes over append. -/
theorem noEmptyF_append (l1 l2 : List (String × JVal)) :
    noEmptyF (l1 ++ l2) = (noEmptyF l1 && noEmptyF l2) := by
  induction l1 with
  | nil => rfl
  | cons kv rest ihr =>
    cases kv with
    | mk k v => simp [noEmptyF_cons, ihr, Bool.and_assoc]

/-- `noEmptyL` distributes over append. -/
theorem noEmptyL_append (l1 l2 : List JVal) :
    noEmptyL (l1 ++ l2) = (noEmptyL l1 && noEmptyL l2) := by
  induction l1 with
  | nil => rfl
  | cons x rest ihr => simp [noEmptyL_cons, ihr, Bool.and_assoc]

/-- The strip pass leaves no empty attribute or element behind, at any
depth, provided no array directly contains an array (holes can then never
survive the pass). -/
theorem strip_noEmpty_all : ∀ n : Nat,
    (∀ fs : List (String × JVal), sizeOf fs ≤ n → noArrInArrF fs = true →
        noEmptyF (stripFields fs) = true) ∧
    (∀ xs : List JVal, sizeOf xs ≤ n → noArrInArrL xs = true →
        noEmptyL (filterElems xs) = true) := by
  intro n
  induction n using Nat.strong_induction_on with
  | _ n ih =>
    constructor
    · intro fs hfs hA
      match fs with
      | [] => rfl
      | (k, v) :: rest =>
        rw [noArrInArrF_cons, Bool.and_eq_true] at hA
        have hrest : sizeOf rest < n := by
          simp [List.cons.sizeOf_spec] at hfs; omega
        have ihRest := (ih (sizeOf rest) hrest).1 rest (Nat.le_refl _) hA.2
        cases v with
        | arr xs =>
          have hxs : sizeOf xs < n := by
            simp [List.cons.sizeOf_spec, Prod.mk.sizeOf_spec] at hfs; omega
          have ihXs := (ih (sizeOf xs) hxs).2 xs (Nat.le_refl _)
            (by simpa [noArrInArr_arr] using hA.1)
          by_cases h : (filterElems xs).isEmpty <;>
            simp [stripFields_cons_arr, h, noEmptyF_append, noEmptyF_cons,
              isEmptyValue, noEmpty_arr, ihRest, ihXs]
        | obj gs =>
          have hgs : sizeOf gs < n := by
            simp [List.cons.sizeOf_spec, Prod.mk.sizeOf_spec] at hfs; omega
          have ihGs := (ih (sizeOf gs) hgs).1 gs (Nat.le_refl _)
            (by simpa [noArrInArr_obj] using hA.1)
          by_cases h : (stripFields gs).isEmpty <;>
            simp [stripFields_cons_obj, h, noEmptyF_append, noEmptyF_cons,
              isEmptyValue, noEmpty_obj, ihRest, ihGs]
        | null => simpa [stripFields_cons_null] using ihRest
        | str s =>
          by_cases h : isEmptyValue (JVal.str s) <;>
            simp [stripFields_cons_str, h, noEmptyF_append, noEmptyF_cons,
              noEmpty, ihRest]
        | num m => simp [stripFields_cons_num, noEmptyF_cons, isEmptyValue, noEmpty, ihRest]
        | bool b => simp [stripFields_cons_bool, noEmptyF_cons, isEmptyValue, noEmpty, ihRest]
    · intro xs hxs hA
      match xs with
      | [] => rfl
      | x :: rest =>
        rw [noArrInArrL_cons, Bool.and_eq_true, Bool.and_eq_true] at hA
        have hrest : sizeOf rest < n := by
          simp [List.cons.sizeOf_spec] at hxs; omega
        have ihRest := (ih (sizeOf rest) hrest).2 rest (Nat.le_refl _) hA.2
        cases x with
        | arr ys => simp [JVal.isArr] at hA
        | obj gs =>
          have hgs : sizeOf gs < n := by
            simp [List.cons.sizeOf_spec] at hxs; omega
          have ihGs := (ih (sizeOf gs) hgs).1 gs (Nat.le_refl _)
            (by simpa [noArrInArr_obj] using hA.1.2)
          by_cases h : isEmptyValue (stripItem (JVal.obj gs))
          · simp [filterElems_cons, h, ihRest]
          · have h' : isEmptyValue (JVal.obj (stripFields gs)) = false := by
              simpa [stripItem_obj] using h
            simp [filterElems_cons, h, noEmptyL_append, noEmptyL_cons,
              stripItem_obj, noEmpty_obj, ihRest, ihGs, h']
        | null => simp [filterElems_cons, stripItem, isEmptyValue, ihRest]
        | str s =>
          by_cases h : isEmptyValue (JVal.str s) <;>
            simp [filterElems_cons, stripItem, h, noEmptyL_append, noEmptyL_cons,
              noEmpty, ihRest]
        | num m =>
          simp [filterElems_cons, stripItem, isEmptyValue, noEmptyL_cons, noEmpty, ihRest]
        | bool b =>
          simp [filterElems_cons, stripItem, isEmptyValue, noEmptyL_cons, noEmpty, ihRest]

/-- Nil lemma for `noArrInArrF`. -/
theorem noArrInArrF_nil : noArrInArrF [] = true := rfl

/-- Nil lemma for `noArrInArrL`. -/
theorem noArrInArrL_nil : noArrInArrL [] = true := rfl

/-- Strings are not arrays and contain none. -/
theorem noArrInArr_str (s : String) : noArrInArr (JVal.str s) = true := rfl

/-- Numbers are not arrays and contain none. -/
theorem noArrInArr_num (m : Nat) : noArrInArr (JVal.num m) = true := rfl

/-- Booleans are not arrays and contain none. -/
theorem noArrInArr_bool (b : Bool) : noArrInArr (JVal.bool b) = true := rfl

/-- Null is not an array and contains none. -/
theorem noArrInArr_null : noArrInArr JVal.null = true := rfl

/-- Optional-string encodings contain no array. -/
theorem noArrInArr_optStrJ (o : Option String) : noArrInArr (optStrJ o) = true := by
  cases o <;> rfl

/-- Optional-number encodings contain no array. -/
theorem noArrInArr_optNumJ (o : Option Nat) : noArrInArr (optNumJ o) = true := by
  cases o <;> rfl

/-- `noArrInArrF` distributes over append. -/
theorem noArrInArrF_append (l1 l2 : List (String × JVal)) :
    noArrInArrF (l1 ++ l2) = (noArrInArrF l1 && noArrInArrF l2) := by
  induction l1 with
  | nil => rfl
  | cons kv rest ihr =>
    cases kv with
    | mk k v => simp [noArrInArrF_cons, ihr, Bool.and_assoc]

/-- A conditional field contributes no array-in-array when its value has
none. -/
theorem noArrInArrF_condField (c : Bool) (k : String) (v : JVal) :
    noArrInArrF (condField c k v) = (!c || noArrInArr v) := by
  cases c <;> simp [condField, noArrInArrF_cons, noArrInArrF_nil]

/-- Mapping a constructor that never yields an array over a list gives a
hole-free element list. -/
theorem noArrInArrL_map {α : Type} (f : α → JVal) (l : List α)
    (h : ∀ a : α, ((!(f a).isArr) && noArrInArr (f a)) = true) :
    noArrInArrL (l.map f) = true := by
  induction l with
  | nil => rfl
  | cons a rest ihr => simp [List.map_cons, noArrInArrL_cons, h a, ihr]

/-- String elements are array-free. -/
theorem noArrInArrL_map_str (l : List String) :
    noArrInArrL (l.map JVal.str) = true :=
  noArrInArrL_map JVal.str l (fun _ => rfl)

/-- Ability objects are array-free elements. -/
theorem abilityJ_ok (a : AbilityInfo) :
    ((!(abilityJ a).isArr) && noArrInArr (abilityJ a)) = true := rfl

/-- Base-stat objects are array-free elements. -/
theorem baseStatJ_ok (s : BaseStatInfo) :
    ((!(baseStatJ s).isArr) && noArrInArr (baseStatJ s)) = true := rfl

/-- Top-move objects are array-free elements. -/
theorem topMoveJ_ok (m : MoveSummaryInfo) :
    ((!(topMoveJ m).isArr) && noArrInArr (topMoveJ m)) = true := by
  simp [topMoveJ, JVal.isArr, noArrInArr_obj, noArrInArrF_cons, noArrInArrF_nil,
    noArrInArr_str, noArrInArr_optStrJ, noArrInArr_optNumJ]

/-- Attack objects are array-free elements: their only nested array is the
cost list of strings, which sits behind an object field. -/
theorem attackJ_ok (a : AttackInfo) :
    ((!(attackJ a).isArr) && noArrInArr (attackJ a)) = true := by
  cases h : a.text <;>
    simp [attackJ, h, JVal.isArr, noArrInArr_obj, noArrInArrF_append,
      noArrInArrF_cons, noArrInArrF_nil, noArrInArr_str, noArrInArr_num,
      noArrInArr_arr, noArrInArrL_map_str]

/-- The candidate card assembled by the normalizer never places an array
directly inside an array. -/
theorem cardFields_noArrInArr (p : PokeApiPokemon) :
    noArrInArrF (cardFields p) = true := by
  simp [cardFields, noArrInArrF_append, noArrInArrF_cons, noArrInArrF_nil,
    noArrInArrF_condField, noArrInArr_obj, noArrInArr_arr, noArrInArr_str,
    noArrInArr_num, noArrInArr_bool, noArrInArr_null, noArrInArrL_cons,
    noArrInArrL_nil, noArrInArrL_map_str, JVal.isArr, noArrInArr_optStrJ,
    noArrInArr_optNumJ,
    noArrInArrL_map abilityJ _ abilityJ_ok,
    noArrInArrL_map baseStatJ _ baseStatJ_ok,
    noArrInArrL_map topMoveJ _ topMoveJ_ok,
    noArrInArrL_map attackJ _ attackJ_ok]

/-- C1: For every raw detail record, the entity produced by the normalizer
(`mapPokemonToCard`) contains no attribute whose value is null, an empty
string, an empty list, or an empty mapping, at any nesting depth; and the
strip-empty pass (`stripEmpty`) is idempotent: applying it to an
already-stripped value changes nothing. -/
theorem claim_C1_normalizer_no_empty_and_idem :
    (∀ p : PokeApiPokemon, noEmpty (mapPokemonToCard p) = true) ∧
    (∀ v : JVal, stripEmpty (stripEmpty v) = stripEmpty v) := by
  constructor
  · intro p
    have h := (strip_noEmpty_all (sizeOf (cardFields p))).1 (cardFields p)
      (Nat.le_refl _) (cardFields_noArrInArr p)
    simpa [mapPokemonToCard, stripEmpty, noEmpty_obj] using h
  · exact stripEmpty_idem

/-- Embeds the shared-cursor worker loop of `fetchPokemonDetailsBatch`. The
claim-and-advance step (`nextIndex++`) is atomic, so each index in range is
claimed by exactly one worker and its `results` slot is written
independently of the interleaving; the loop is therefore modelled as the
sequence of claims in cursor order. A failed per-item fetch (`fetch`
returning `none`) is logged and leaves the slot `null`. -/
def batchWorkerLoop {α β : Type} (fetch : α → Option β) (items : List α) :
    Nat → List (Option β) → List (Option β)
  | i, results =>
    if h : i < items.length then
      batchWorkerLoop fetch items (i + 1) (results.set i (fetch (items.get ⟨i, h⟩)))
    else results
termination_by i _ => items.length - i
decreasing_by simp_wf; omega

/-- Embeds `fetchPokemonDetailsBatch`: early return on an empty input, then
the worker pool fills the pre-sized `null` results array and the non-null
entries are kept in index order. -/
def fetchPokemonDetailsBatch {α β : Type} (fetch : α → Option β)
    (items : List α) : List β :=
  if items.length = 0 then []
  else (batchWorkerLoop fetch items 0 (List.replicate items.length none)).filterMap id

/-- Slot-level description of the worker loop: slots below the cursor keep
their value, slots from the cursor on receive their item's fetch result. -/
theorem batchWorkerLoop_getElem? {α β : Type} (fetch : α → Option β) (items : List α) :
    ∀ (k i : Nat) (results : List (Option β)), items.length - i ≤ k →
      results.length = items.length → ∀ j : Nat,
        (batchWorkerLoop fetch items i results)[j]?
          = if j < i then results[j]? else items[j]?.map fetch := by
  intro k
  induction k with
  | zero =>
    intro i results hk hlen j
    have hi : ¬ i < items.length := by omega
    rw [batchWorkerLoop, dif_neg hi]
    by_cases hj : j < i
    · simp [hj]
    · have h1 : results[j]? = none := List.getElem?_eq_none (by omega)
      have h2 : items[j]? = none := List.getElem?_eq_none (by omega)
      simp [hj, h1, h2]
  | succ k ihk =>
    intro i results hk hlen j
    by_cases hi : i < items.length
    · rw [batchWorkerLoop, dif_pos hi]
      rw [ihk (i + 1) _ (by omega) (by simpa using hlen) j]
      by_cases hj : j < i
      · have hji : i ≠ j := by omega
        simp [hj, Nat.lt_succ_of_lt hj, List.getElem?_set_ne hji]
      · by_cases hje : j = i
        · subst hje
          have hlt : j < results.length := by omega
          simp [hj, Nat.lt_succ_self, List.getElem?_set_eq_of_lt _ hlt,
            List.getElem?_eq_getElem hi, List.get_eq_getElem]
        · have hj1 : ¬ j < i + 1 := by omega
          simp [hj, hj1]
    · rw [batchWorkerLoop, dif_neg hi]
      by_cases hj : j < i
      · simp [hj]
      · have h1 : results[j]? = none := List.getElem?_eq_none (by omega)
        have h2 : items[j]? = none := List.getElem?_eq_none (by omega)
        simp [hj, h1, h2]

/-- Any complete run of the worker pool produces exactly the per-index fetch
results. -/
theorem batchWorkerLoop_eq_map {α β : Type} (fetch : α → Option β) (items : List α) :
    batchWorkerLoop fetch items 0 (List.replicate items.length none)
      = items.map fetch := by
  apply List.ext_getElem?
  intro j
  rw [batchWorkerLoop_getElem? fetch items items.length 0 _ (by omega) (by simp)]
  simp [List.getElem?_map]

/-- The batch call returns the successful results in input order. -/
theorem fetchPokemonDetailsBatch_eq_filterMap {α β : Type} (fetch : α → Option β)
    (items : List α) :
    fetchPokemonDetailsBatch fetch items = items.filterMap fetch := by
  by_cases h : items.length = 0
  · have hnil : items = [] := List.eq_nil_of_length_eq_zero h
    subst hnil
    simp [fetchPokemonDetailsBatch]
  · rw [fetchPokemonDetailsBatch, if_neg h, batchWorkerLoop_eq_map]
    simp [List.filterMap_map]

/-- C2: For every ordered list of references, the batch detail fetcher
returns the fetch results of exactly the references whose individual fetch
succeeded, in their original relative order (so the length is at most the
input length; a per-item failure never fails the call, which is total); in
particular 10 references with failures at positions 3 and 7 yield exactly
the 8 surviving results in order. -/
theorem claim_C2_batch_partial_success :
    (∀ {α β : Type} (fetch : α → Option β) (items : List α),
        fetchPokemonDetailsBatch fetch items = items.filterMap fetch ∧
        (fetchPokemonDetailsBatch fetch items).length ≤ items.length) ∧
    fetchPokemonDetailsBatch
        (fun i => if i = 3 ∨ i = 7 then none else some (100 + i)) (List.range 10)
      = [100, 101, 102, 104, 105, 106, 108, 109] := by
  constructor
  · intro α β fetch items
    refine ⟨fetchPokemonDetailsBatch_eq_filterMap fetch items, ?_⟩
    rw [fetchPokemonDetailsBatch_eq_filterMap]
    exact List.length_filterMap_le fetch items
  · rw [fetchPokemonDetailsBatch_eq_filterMap]
    rfl

/-- The static rarity threshold table stated by the spec, strictly
descending in minimum stat sum. -/
def RARITY_THRESHOLDS : List (Nat × String) :=
  [(600, "Legendary"), (520, "Epic"), (450, "Rare"), (380, "Uncommon")]

/-- Spec-side reading of the rarity rule: the first entry of the descending
threshold table whose minimum is at most the stat sum wins, else the base
tier. -/
def rarityFromTable (total : Nat) : String :=
  ((RARITY_THRESHOLDS.find? (fun t => decide (t.1 ≤ total))).map
    (fun t => t.2)).getD ("Common")

/-- The code's rarity cascade agrees with the descending-table reading. -/
theorem getRarityFromStats_eq_table (stats : List PokeApiStat) :
    getRarityFromStats stats = rarityFromTable (sumStats stats) := by
  unfold getRarityFromStats rarityFromTable RARITY_THRESHOLDS
  by_cases h6 : 600 ≤ sumStats stats
  · simp [List.find?, decide_eq_true h6, h6]
  · by_cases h5 : 520 ≤ sumStats stats
    · simp [List.find?, decide_eq_false h6, decide_eq_true h5, h6, h5]
    · by_cases h4 : 450 ≤ sumStats stats
      · simp [List.find?, decide_eq_false h6, decide_eq_false h5,
          decide_eq_true h4, h6, h5, h4]
      · by_cases h3 : 380 ≤ sumStats stats
        · simp [List.find?, decide_eq_false h6, decide_eq_false h5,
            decide_eq_false h4, decide_eq_true h3, h6, h5, h4, h3]
        · simp [List.find?, decide_eq_false h6, decide_eq_false h5,
            decide_eq_false h4, decide_eq_false h3, h6, h5, h4, h3]

/-- C7: The derived rarity is determined by the base-stat sum through the
descending threshold table (600 Legendary, 520 Epic, 450 Rare, 380
Uncommon, else Common), with exact boundaries at sums 600, 599, 520, 519,
450, 449, 380 and 379. -/
theorem claim_C7_rarity_thresholds :
    (∀ stats : List PokeApiStat,
        getRarityFromStats stats = rarityFromTable (sumStats stats)) ∧
    getRarityFromStats [⟨600, "hp"⟩] = "Legendary" ∧
    getRarityFromStats [⟨599, "hp"⟩] = "Epic" ∧
    getRarityFromStats [⟨520, "hp"⟩] = "Epic" ∧
    getRarityFromStats [⟨519, "hp"⟩] = "Rare" ∧
    getRarityFromStats [⟨450, "hp"⟩] = "Rare" ∧
    getRarityFromStats [⟨449, "hp"⟩] = "Uncommon" ∧
    getRarityFromStats [⟨380, "hp"⟩] = "Uncommon" ∧
    getRarityFromStats [⟨379, "hp"⟩] = "Common" :=
  ⟨getRarityFromStats_eq_table, rfl, rfl, rfl, rfl, rfl, rfl, rfl, rfl⟩

/-- Spec-side reading of the generation rule: ascending closed-form
intervals over the primary identifier, the last bucket unbounded. -/
def generationByIntervals (d : Nat) : GenerationRange :=
  if d ≤ 151 then ⟨"generation-i", "Generation I", "GEN1", 151⟩
  else if d ≤ 251 then ⟨"generation-ii", "Generation II", "GEN2", 251⟩
  else if d ≤ 386 then ⟨"generation-iii", "Generation III", "GEN3", 386⟩
  else if d ≤ 493 then ⟨"generation-iv", "Generation IV", "GEN4", 493⟩
  else if d ≤ 649 then ⟨"generation-v", "Generation V", "GEN5", 649⟩
  else if d ≤ 721 then ⟨"generation-vi", "Generation VI", "GEN6", 721⟩
  else if d ≤ 809 then ⟨"generation-vii", "Generation VII", "GEN7", 809⟩
  else if d ≤ 905 then ⟨"generation-viii", "Generation VIII", "GEN8", 905⟩
  else ⟨"generation-ix", "Generation IX", "GEN9", MAX_SAFE_INTEGER⟩

/-- The code's table scan agrees with the interval reading for every
identifier, including identifiers beyond the last bound (the `??` fallback
makes the last bucket unbounded). -/
theorem getGenerationByDexId_eq_intervals (d : Nat) :
    getGenerationByDexId d = generationByIntervals d := by
  unfold getGenerationByDexId generationByIntervals GENERATION_RANGES
  by_cases h1 : d ≤ 151
  · simp [List.find?, h1]
  · by_cases h2 : d ≤ 251
    · simp [List.find?, h1, h2]
    · by_cases h3 : d ≤ 386
      · simp [List.find?, h1, h2, h3]
      · by_cases h4 : d ≤ 493
        · simp [List.find?, h1, h2, h3, h4]
        · by_cases h5 : d ≤ 649
          · simp [List.find?, h1, h2, h3, h4, h5]
          · by_cases h6 : d ≤ 721
            · simp [List.find?, h1, h2, h3, h4, h5, h6]
            · by_cases h7 : d ≤ 809
              · simp [List.find?, h1, h2, h3, h4, h5, h6, h7]
              · by_cases h8 : d ≤ 905
                · simp [List.find?, h1, h2, h3, h4, h5, h6, h7, h8]
                · by_cases h9 : d ≤ MAX_SAFE_INTEGER <;>
                    simp [List.find?, h1, h2, h3, h4, h5, h6, h7, h8, h9,
                      List.getLastD]

/-- C8: The assigned generation is the first entry, in ascending order, of
the static range table whose bound reaches the identifier (last entry
effectively unbounded), so every identifier gets exactly one generation of
the table; boundaries are exact at every one of the 9 ranges. -/
theorem claim_C8_generation_ranges :
    (∀ d : Nat, getGenerationByDexId d = generationByIntervals d ∧
        getGenerationByDexId d ∈ GENERATION_RANGES) ∧
    ((getGenerationByDexId 151).displayName = "Generation I" ∧
     (getGenerationByDexId 152).displayName = "Generation II" ∧
     (getGenerationByDexId 251).displayName = "Generation II" ∧
     (getGenerationByDexId 252).displayName = "Generation III" ∧
     (getGenerationByDexId 386).displayName = "Generation III" ∧
     (getGenerationByDexId 387).displayName = "Generation IV" ∧
     (getGenerationByDexId 493).displayName = "Generation IV" ∧
     (getGenerationByDexId 494).displayName = "Generation V" ∧
     (getGenerationByDexId 649).displayName = "Generation V" ∧
     (getGenerationByDexId 650).displayName = "Generation VI" ∧
     (getGenerationByDexId 721).displayName = "Generation VI" ∧
     (getGenerationByDexId 722).displayName = "Generation VII" ∧
     (getGenerationByDexId 809).displayName = "Generation VII" ∧
     (getGenerationByDexId 810).displayName = "Generation VIII" ∧
     (getGenerationByDexId 905).displayName = "Generation VIII" ∧
     (getGenerationByDexId 906).displayName = "Generation IX") := by
  constructor
  · intro d
    refine ⟨getGenerationByDexId_eq_intervals d, ?_⟩
    rw [getGenerationByDexId_eq_intervals d]
    unfold generationByIntervals
    repeat' split
    all_goals decide
  · repeat' constructor

/-- The slice of a normalized card consulted by MainView's sorting and
filtering (fields of `PokemonCard` in types/pokemon.ts; optional fields are
`none` when absent). `set.name` and `serie.name` are required by the type
and always written by the normalizer. -/
structure CardV where
  name : String
  hp : Option String
  rarity : Option String
  setName : String
  serieName : String
  types : Option (List String)
  dexId : Option (List Nat)
deriving DecidableEq

/-- The sort properties of MainView's switch (`SortProperty` values it
distinguishes; every other value falls to the `name` default). -/
inductive SortProperty where
  | name
  | hp
  | rarity
  | set
  | dexId
deriving DecidableEq

/-- The sort direction (`SortOrder`). -/
inductive SortOrder where
  | asc
  | desc
deriving DecidableEq

/-- Embeds `RARITY_ORDER`, ascending rank. -/
def RARITY_ORDER : List String :=
  ["common", "uncommon", "rare", "epic", "legendary"]

/-- Embeds `GENERATION_ORDER`, ascending rank. -/
def GENERATION_ORDER : List String :=
  ["generation i", "generation ii", "generation iii", "generation iv",
   "generation v", "generation vi", "generation vii", "generation viii",
   "generation ix"]

/-- Rank lookup in the reduce-built rank record: the index when the key is
present, else `Number.MAX_SAFE_INTEGER`. -/
def rankIn (table : List String) (key : String) : Nat :=
  match table.findIdx? (fun entry => entry == key) with
  | some i => i
  | none => MAX_SAFE_INTEGER

/-- JavaScript `toLowerCase` for the ASCII names handled here, computed on
the character list so that concrete instances evaluate. -/
def jsToLower (s : String) : String := String.mk (s.data.map Char.toLower)

/-- Lexicographic code-point comparison of character lists. -/
def lexCmpCh : List Char → List Char → Int
  | [], [] => 0
  | [], _ :: _ => -1
  | _ :: _, [] => 1
  | a :: as, b :: bs =>
    if a.toNat < b.toNat then -1
    else if b.toNat < a.toNat then 1
    else lexCmpCh as bs

/-- Model of `localeCompare` for the ASCII names handled here: negative,
zero or positive according to code-point order. -/
def strCompare (a b : String) : Int := lexCmpCh a.data b.data

/-- JavaScript `parseInt(s, 10) || 0` for the canonical decimal strings the
normalizer writes (non-numeric input falls back to 0, as `NaN || 0` does). -/
def jsParseIntOr0 (s : String) : Nat :=
  if s.data ≠ [] ∧ s.data.all (fun c => decide (48 ≤ c.toNat ∧ c.toNat ≤ 57)) then
    s.data.foldl (fun acc c => acc * 10 + (c.toNat - 48)) 0
  else 0

/-- The numeric hp used by sorting and filtering:
`parseInt(card.hp || '0', 10) || 0`. -/
def cardHpValue (c : CardV) : Nat := jsParseIntOr0 (jsOrStr c.hp ("0"))

/-- The rarity rank used by sorting: `a.rarity?.toLowerCase() ?? ''` looked
up in `RARITY_RANK`. -/
def rarityRankOf (c : CardV) : Nat :=
  rankIn RARITY_ORDER ((c.rarity.map (fun r => jsToLower r)).getD (""))

/-- The generation rank used by the `set` sort:
`a.set?.name?.toLowerCase() ?? ''` looked up in `GENERATION_RANK`. -/
def genRankOf (c : CardV) : Nat := rankIn GENERATION_ORDER (jsToLower c.setName)

/-- The first listed national identifier: `a.dexId?.[0] || 0`. -/
def headDexOf (c : CardV) : Nat :=
  match c.dexId with
  | some (x :: _) => x
  | _ => 0

/-- Direction-adjusted numeric comparison: `aValue - bValue`, flipped for
descending. -/
def dirNum (ord : SortOrder) (a b : Nat) : Int :=
  match ord with
  | .asc => (a : Int) - (b : Int)
  | .desc => (b : Int) - (a : Int)

/-- Direction-adjusted string comparison via `localeCompare`, flipped for
descending. -/
def dirStr (ord : SortOrder) (a b : String) : Int :=
  match ord with
  | .asc => strCompare a b
  | .desc => strCompare b a

/-- Embeds the comparator closed over by `sortCards` in MainView. -/
def sortCmp (prop : SortProperty) (ord : SortOrder) (a b : CardV) : Int :=
  match prop with
  | .name => dirStr ord a.name b.name
  | .hp => dirNum ord (cardHpValue a) (cardHpValue b)
  | .rarity => dirNum ord (rarityRankOf a) (rarityRankOf b)
  | .set =>
    if genRankOf a ≠ genRankOf b then dirNum ord (genRankOf a) (genRankOf b)
    else dirStr ord a.setName b.setName
  | .dexId => dirNum ord (headDexOf a) (headDexOf b)

/-- JavaScript `Array#sort` with a consistent comparator is a stable sort
placing `a` before `b` exactly when the comparator is non-positive;
modelled by the stable insertion sort. -/
def jsSortBy {α : Type} (cmp : α → α → Int) (l : List α) : List α :=
  List.insertionSort (fun a b => cmp a b ≤ 0) l

/-- Embeds `sortCards`: copy the list (`[...list]`) and sort it with the
comparator for the requested property and direction. -/
def sortCards (prop : SortProperty) (ord : SortOrder) (l : List CardV) : List CardV :=
  jsSortBy (sortCmp prop ord) l

/-- Embeds `FilterOptions` of types/pokemon.ts (`sets` and `subtypes` are
carried but never consulted by `matchesFilters`). -/
structure FilterOptions where
  sets : List String
  series : List String
  types : List String
  rarities : List String
  subtypes : List String
  hpMin : Nat
  hpMax : Nat

/-- Embeds `matchesFilters` of MainView. -/
def matchesFilters (filters : FilterOptions) (card : CardV) : Bool :=
  let matchesSeries := filters.series.isEmpty ||
    filters.series.any (fun series =>
      let normalizedSeries := jsToLower series
      jsToLower card.setName == normalizedSeries
        || jsToLower card.serieName == normalizedSeries)
  let matchesType := filters.types.isEmpty ||
    filters.types.all (fun t =>
      (card.types.map (fun ts =>
          ts.any (fun cardType => jsToLower cardType == jsToLower t))).getD false)
  let matchesRarity := filters.rarities.isEmpty ||
    filters.rarities.any (fun rarity =>
      match card.rarity with
      | some r => jsToLower r == jsToLower rarity
      | none => false)
  let hp := cardHpValue card
  matchesSeries && matchesType && matchesRarity
    && (decide (filters.hpMin ≤ hp) && decide (hp ≤ filters.hpMax))

/-- A card with an unranked set name and display name equal to its
companion below, used to exercise the `set` tie-break. -/
def cardSetA : CardV := ⟨"Same", none, none, "Alpha", "Alpha", none, some [1]⟩

/-- The companion card: same display name, different unranked set name. -/
def cardSetB : CardV := ⟨"Same", none, none, "Beta", "Beta", none, some [2]⟩

/-- C3 counterexample: both cards have equal (unranked) generation rank and
the same display name, so under the claimed always-ascending display-name
tie-break a descending `set` sort would leave them in input order; the code
instead flips the set-name tie-break with the direction and swaps them. -/
theorem claim_C3_counterexample :
    sortCards .set .desc [cardSetA, cardSetB] = [cardSetB, cardSetA] ∧
    genRankOf cardSetA = genRankOf cardSetB ∧
    cardSetA.name = cardSetB.name ∧
    cardSetB ≠ cardSetA := by decide

/-- C3 amended: sorting by `set` compares primarily by generation rank, and
the direction flips the whole comparator, tie-break included: the
descending comparator is the ascending one with its arguments swapped, and
when ranks are equal the tie-break compares the set display-name (not the
entity display-name) in the requested direction. -/
theorem claim_C3_set_sort_amended :
    (∀ a b : CardV, sortCmp .set .desc a b = sortCmp .set .asc b a) ∧
    (∀ a b : CardV, genRankOf a = genRankOf b →
        sortCmp .set .asc a b = strCompare a.setName b.setName ∧
        sortCmp .set .desc a b = strCompare b.setName a.setName) ∧
    (∀ a b : CardV, genRankOf a ≠ genRankOf b →
        sortCmp .set .asc a b = (genRankOf a : Int) - (genRankOf b : Int) ∧
        sortCmp .set .desc a b = (genRankOf b : Int) - (genRankOf a : Int)) := by
  refine ⟨?_, ?_, ?_⟩
  · intro a b
    by_cases h : genRankOf a = genRankOf b
    · simp [sortCmp, h, dirStr]
    · simp [sortCmp, h, Ne.symm h, dirNum]
  · intro a b h
    simp [sortCmp, h, dirStr]
  · intro a b h
    simp [sortCmp, h, dirNum]

/-- C3 amended witness: the tie-break branch evaluated at the two concrete
equal-rank cards. -/
theorem claim_C3_set_sort_amended_witness :
    sortCmp .set .asc cardSetA cardSetB = strCompare cardSetA.setName cardSetB.setName ∧
    sortCmp .set .desc cardSetA cardSetB = strCompare cardSetB.setName cardSetA.setName :=
  claim_C3_set_sort_amended.2.1 cardSetA cardSetB (by decide)

/-- The filter used by the conjunctive-types instances: Fire and Flying both
selected. -/
def fFireFlying : FilterOptions := ⟨[], [], ["Fire", "Flying"], [], [], 0, 1000⟩

/-- An entity with types Fire only. -/
def cFireOnly : CardV := ⟨"F", none, none, "X", "X", some ["Fire"], none⟩

/-- An entity with types Fire, Flying and Dragon. -/
def cFireFlyingDragon : CardV :=
  ⟨"F", none, none, "X", "X", some ["Fire", "Flying", "Dragon"], none⟩

/-- The filter used by the disjunctive-series instance: series A or B. -/
def fSeriesAB : FilterOptions := ⟨[], ["A", "B"], [], [], [], 0, 1000⟩

/-- An entity whose set and series name is B alone. -/
def cSerieB : CardV := ⟨"F", none, none, "B", "B", none, none⟩

/-- C5: An entity matches the filter criteria iff all four conditions hold:
series empty or the set/series name case-insensitively equals some selected
series (disjunctive); types empty or every selected type is possessed
case-insensitively (conjunctive); rarities empty or the rarity
case-insensitively equals some selected rarity (disjunctive); and the hp
(0 when absent) lies within the inclusive range. The stated concrete
instances hold. -/
theorem claim_C5_filter_semantics :
    (∀ (f : FilterOptions) (c : CardV), matchesFilters f c = true ↔
      ((f.series = [] ∨ ∃ s ∈ f.series,
          jsToLower c.setName = jsToLower s ∨ jsToLower c.serieName = jsToLower s) ∧
       (f.types = [] ∨ ∀ t ∈ f.types, ∃ ct ∈ c.types.getD [],
          jsToLower ct = jsToLower t) ∧
       (f.rarities = [] ∨ ∃ r ∈ f.rarities, ∃ cr, c.rarity = some cr ∧
          jsToLower cr = jsToLower r) ∧
       (f.hpMin ≤ cardHpValue c ∧ cardHpValue c ≤ f.hpMax))) ∧
    matchesFilters fFireFlying cFireOnly = false ∧
    matchesFilters fFireFlying cFireFlyingDragon = true ∧
    matchesFilters fSeriesAB cSerieB = true := by
  refine ⟨?_, by decide, by decide, by decide⟩
  intro f c
  cases hr : c.rarity <;> cases ht : c.types <;>
    simp [matchesFilters, hr, ht, Bool.and_eq_true, Bool.or_eq_true,
      List.isEmpty_iff, List.any_eq_true, List.all_eq_true, beq_iff_eq,
      decide_eq_true_eq, and_assoc]

/-- One row of the remote listing (`PokeApiListItem`). -/
structure PokeApiListItem where
  name : String
  url : String
deriving DecidableEq

/-- The paginated listing response (`PokeApiListResponse`). -/
structure PokeApiListResponse where
  results : List PokeApiListItem
  count : Nat
deriving DecidableEq

/-- Embeds `fetchTypes` as a computation over the network outcome (a
rejected request is `Except.error ()`): on success the names are
title-cased; the catch block logs the error and resolves with an empty
list, so the function itself never rejects. -/
def fetchTypes (resp : Except Unit (List PokeApiListItem)) :
    Except Unit (List String) :=
  match resp with
  | .ok results => .ok (results.map (fun t => toTitleCase t.name))
  | .error _ => .ok []

/-- Embeds `fetchGenerations`: identical shape to `fetchTypes`, including
the swallowing catch block. -/
def fetchGenerations (resp : Except Unit (List PokeApiListItem)) :
    Except Unit (List String) :=
  match resp with
  | .ok results => .ok (results.map (fun g => toTitleCase g.name))
  | .error _ => .ok []

/-- Embeds `fetchPokemon`: the listing response on success; the catch block
rethrows a wrapped error, propagating the failure once to the caller. -/
def fetchPokemon (resp : Except Unit PokeApiListResponse) :
    Except Unit PokeApiListResponse :=
  match resp with
  | .ok r => .ok r
  | .error _ => .error ()

/-- C4 counterexample: when the remote type-list or generation-list request
fails, `fetchTypes` and `fetchGenerations` do not surface an error to the
caller: each resolves successfully with an empty list, indistinguishable
from a successful empty listing. -/
theorem claim_C4_counterexample :
    fetchTypes (Except.error ()) = Except.ok [] ∧
    fetchTypes (Except.error ()) ≠ Except.error () ∧
    fetchGenerations (Except.error ()) = Except.ok [] ∧
    fetchGenerations (Except.error ()) ≠ Except.error () := by
  refine ⟨rfl, ?_, rfl, ?_⟩ <;> intro h <;> cases h

/-- Comparing a list with itself yields 0. -/
theorem lexCmpCh_self : ∀ as : List Char, lexCmpCh as as = 0
  | [] => rfl
  | a :: as => by simp [lexCmpCh, lexCmpCh_self as]

/-- Swapping the arguments negates the comparison. -/
theorem lexCmpCh_swap : ∀ as bs : List Char, lexCmpCh bs as = - lexCmpCh as bs
  | [], [] => rfl
  | [], _ :: _ => rfl
  | _ :: _, [] => rfl
  | a :: as, b :: bs => by
    by_cases hab : a.toNat < b.toNat
    · simp [lexCmpCh, hab, (by omega : ¬ b.toNat < a.toNat)]
      all_goals omega
    · by_cases hba : b.toNat < a.toNat
      · simp [lexCmpCh, hab, hba]
      · simp [lexCmpCh, hab, hba, lexCmpCh_swap as bs]

/-- The non-positive side of the comparison is transitive. -/
theorem lexCmpCh_trans_le (as : List Char) : ∀ bs cs : List Char,
    lexCmpCh as bs ≤ 0 → lexCmpCh bs cs ≤ 0 → lexCmpCh as cs ≤ 0 := by
  induction as with
  | nil =>
    intro bs cs h1 h2
    cases cs <;> simp [lexCmpCh]
  | cons a as ih =>
    intro bs cs h1 h2
    cases bs with
    | nil => simp [lexCmpCh] at h1
    | cons b bs =>
      cases cs with
      | nil => simp [lexCmpCh] at h2
      | cons c cs =>
        simp only [lexCmpCh] at h1 h2 ⊢
        by_cases hab : a.toNat < b.toNat <;> by_cases hba : b.toNat < a.toNat <;>
          by_cases hbc : b.toNat < c.toNat <;> by_cases hcb : c.toNat < b.toNat <;>
            simp only [hab, hba, hbc, hcb, if_true, if_false] at h1 h2 <;>
            first
              | omega
              | (by_cases hac : a.toNat < c.toNat
                 · simp [hac]
                 · by_cases hca : c.toNat < a.toNat
                   · omega
                   · simp [hac, hca]
                     exact ih bs cs h1 h2)

/-- The modelled `localeCompare` is total on its non-positive side. -/
theorem strCompare_le_total (a b : String) :
    strCompare a b ≤ 0 ∨ strCompare b a ≤ 0 := by
  have h := lexCmpCh_swap a.data b.data
  unfold strCompare
  omega

/-- The modelled `localeCompare` is transitive on its non-positive side. -/
theorem strCompare_le_trans (a b c : String) :
    strCompare a b ≤ 0 → strCompare b c ≤ 0 → strCompare a c ≤ 0 :=
  lexCmpCh_trans_le a.data b.data c.data

/-- A consistent comparator makes the modelled `Array#sort` produce a list
ordered by the comparator. -/
theorem jsSortBy_sorted {α : Type} (cmp : α → α → Int)
    (htot : ∀ a b, cmp a b ≤ 0 ∨ cmp b a ≤ 0)
    (htrans : ∀ a b c, cmp a b ≤ 0 → cmp b c ≤ 0 → cmp a c ≤ 0)
    (l : List α) : (jsSortBy cmp l).Pairwise (fun a b => cmp a b ≤ 0) := by
  letI : IsTotal α (fun a b => cmp a b ≤ 0) := ⟨htot⟩
  letI : IsTrans α (fun a b => cmp a b ≤ 0) := ⟨fun a b c => htrans a b c⟩
  exact List.sorted_insertionSort _ l

/-- ASCII whitespace, sufficient for the queries handled here. -/
def jsIsSpace (c : Char) : Bool :=
  decide (c.toNat = 32 ∨ (9 ≤ c.toNat ∧ c.toNat ≤ 13))

/-- JavaScript `String#trim`, computed on the character list. -/
def jsTrim (s : String) : String :=
  String.mk (((s.data.dropWhile jsIsSpace).reverse.dropWhile jsIsSpace).reverse)

/-- JavaScript `String#includes`: substring containment. -/
def jsIncludes (s sub : String) : Bool := decide (List.IsInfix sub.data s.data)

/-- The match predicate inside `searchPokemon`: the raw index name contains
the normalized query as a substring, or (`String(pokemon.name) ===
normalized`) equals it exactly; the index name itself is not lowercased. -/
def searchMatches (normalized : String) (p : PokeApiListItem) : Bool :=
  jsIncludes p.name normalized || p.name == normalized

/-- Embeds the success path of `searchPokemon`: trim-and-lowercase the
query, return nothing for a blank query, otherwise filter the index entries
with the match predicate, resolve them through the batch fetcher, and sort
the cards by display name. -/
def searchPokemon (index : List PokeApiListItem)
    (fetch : PokeApiListItem → Option CardV) (query : String) : List CardV :=
  let normalized := jsToLower (jsTrim query)
  if normalized = "" then []
  else
    jsSortBy (fun a b => strCompare a.name b.name)
      (fetchPokemonDetailsBatch fetch (index.filter (searchMatches normalized)))

/-- An index row whose stored name is capitalized. -/
def bulbaItem : PokeApiListItem := ⟨"Bulbasaur", "pokemon/1/"⟩

/-- The entity the detail fetch resolves for that row. -/
def bulbaCard : CardV :=
  ⟨"Bulbasaur", none, none, "Generation I", "Generation I", none, some [1]⟩

/-- C6 counterexample: the index entry's name, lowercased, contains the
trimmed-and-lowercased query, so the claimed predicate matches it and the
result should hold the resolved entity; the code compares the raw name and
returns no results. -/
theorem claim_C6_counterexample :
    jsIncludes (jsToLower bulbaItem.name) (jsToLower (jsTrim ("bul"))) = true ∧
    searchPokemon [bulbaItem] (fun _ => some bulbaCard) ("bul") = [] := by decide

/-- C6 amended: for a non-blank query, `searchPokemon` returns exactly the
entities of the index entries whose name, compared as stored (not
lowercased), contains the trimmed-and-lowercased query as a substring or
equals it exactly, resolved through the batch fetcher, and the sequence is
base-sorted by display name. For an index whose names are all lowercase (as
the remote listing's are) this coincides with the claim. -/
theorem claim_C6_search_amended :
    ∀ (index : List PokeApiListItem) (fetch : PokeApiListItem → Option CardV)
      (q : String), jsToLower (jsTrim q) ≠ "" →
      searchPokemon index fetch q
          = jsSortBy (fun a b => strCompare a.name b.name)
              ((index.filter (searchMatches (jsToLower (jsTrim q)))).filterMap fetch) ∧
      (searchPokemon index fetch q).Pairwise
        (fun a b => strCompare a.name b.name ≤ 0) := by
  intro index fetch q h
  constructor
  · rw [searchPokemon, if_neg h, fetchPokemonDetailsBatch_eq_filterMap]
  · rw [searchPokemon, if_neg h]
    exact jsSortBy_sorted (fun a b : CardV => strCompare a.name b.name)
      (fun a b => strCompare_le_total a.name b.name)
      (fun a b c => strCompare_le_trans a.name b.name c.name) _

/-- C6 amended witness: the amended statement evaluated at a one-entry
index and a query that survives trimming. -/
theorem claim_C6_search_amended_witness :
    searchPokemon [bulbaItem] (fun _ => some bulbaCard) ("saur")
        = jsSortBy (fun a b => strCompare a.name b.name)
            (([bulbaItem].filter (searchMatches (jsToLower (jsTrim ("saur"))))).filterMap
              (fun _ => some bulbaCard)) ∧
    (searchPokemon [bulbaItem] (fun _ => some bulbaCard) ("saur")).Pairwise
      (fun a b => strCompare a.name b.name ≤ 0) :=
  claim_C6_search_amended [bulbaItem] (fun _ => some bulbaCard) ("saur") (by decide)

/-- State-threaded batch resolution used by the effect-explicit search
model: the per-item fetch may touch the world (cache writes, network). -/
def fetchDetailsBatchSt {σ : Type} (fetchItem : PokeApiListItem → σ → Option CardV × σ) :
    List PokeApiListItem → σ → List CardV × σ
  | [], s => ([], s)
  | it :: rest, s =>
    let r := fetchItem it s
    let rec_ := fetchDetailsBatchSt fetchItem rest r.2
    (match r.1 with
     | some c => c :: rec_.1
     | none => rec_.1, rec_.2)

/-- Embeds `searchPokemon` with its effects made explicit: `loadIndex`
stands for `fetchPokemonIndex` (index-cache consultation and the possible
network round trip) and `fetchItem` for the per-item fetch inside the
batch; both thread a world state that records any cache or network
activity. The blank-query early return precedes both. -/
def searchPokemonSt {σ : Type} (loadIndex : σ → List PokeApiListItem × σ)
    (fetchItem : PokeApiListItem → σ → Option CardV × σ)
    (query : String) (s : σ) : List CardV × σ :=
  let normalized := jsToLower (jsTrim query)
  if normalized = "" then ([], s)
  else
    let ix := loadIndex s
    let cards := fetchDetailsBatchSt fetchItem
      (ix.1.filter (searchMatches normalized)) ix.2
    (jsSortBy (fun a b => strCompare a.name b.name) cards.1, cards.2)

/-- C10: a query that is empty or whitespace-only (blank after trimming)
resolves to the empty list with the world state untouched: the index cache
is never consulted and no network request is made, whatever those effects
would have been. -/
theorem claim_C10_blank_query :
    ∀ {σ : Type} (loadIndex : σ → List PokeApiListItem × σ)
      (fetchItem : PokeApiListItem → σ → Option CardV × σ)
      (q : String) (s : σ), jsToLower (jsTrim q) = "" →
      searchPokemonSt loadIndex fetchItem q s = ([], s) := by
  intro σ loadIndex fetchItem q s h
  simp [searchPokemonSt, h]

/-- C10 witness: a whitespace-only query against a state-counting loader
returns the empty list and leaves the effect counter at zero. -/
theorem claim_C10_blank_query_witness :
    searchPokemonSt (fun s : Nat => ([bulbaItem], s + 1))
        (fun _ s => (some bulbaCard, s + 1)) ("   ") 0 = ([], 0) :=
  claim_C10_blank_query (fun s : Nat => ([bulbaItem], s + 1))
    (fun _ s => (some bulbaCard, s + 1)) ("   ") 0 (by decide)

/-- The memoization state of the single-flight loader: the resolved cache
(`pokemonIndexCache`), the in-flight promise by request id
(`pokemonIndexPromise`), and how many network requests have been started.
`fetchAllPokemon`/`allPokemonCache`/`allPokemonPromise` has the identical
structure. -/
structure LoaderState (Data : Type) where
  cache : Option Data
  pending : Option Nat
  requests : Nat

/-- What a caller receives: the cached value immediately, or the promise
(by id) it must await. -/
inductive LoaderOutcome (Data : Type) where
  | value (d : Data)
  | await (pid : Nat)
deriving DecidableEq

/-- The cold startup state: nothing cached, nothing in flight. -/
def coldLoader {Data : Type} : LoaderState Data := ⟨none, none, 0⟩

/-- One synchronous call to `fetchPokemonIndex` up to its suspension point:
return the cache when set; otherwise join the in-flight promise when one
exists; otherwise start one network request and await it. The
check-then-assign on the promise variable runs without interleaving, as
JavaScript's run-to-completion execution guarantees between awaits. -/
def loaderCall {Data : Type} (s : LoaderState Data) :
    LoaderState Data × LoaderOutcome Data :=
  match s.cache with
  | some d => (s, .value d)
  | none =>
    match s.pending with
    | some pid => (s, .await pid)
    | none =>
      (⟨none, some s.requests, s.requests + 1⟩, .await s.requests)

/-- The in-flight request resolves: the `then` branch stores the result in
the cache and the `finally` branch clears the promise. -/
def loaderResolve {Data : Type} (d : Data) (s : LoaderState Data) : LoaderState Data :=
  ⟨some d, none, s.requests⟩

/-- The in-flight request rejects: the `catch` branch leaves the cache
unset (it assigns null) and rethrows, and the `finally` branch clears the
promise. -/
def loaderReject {Data : Type} (s : LoaderState Data) : LoaderState Data :=
  ⟨none, none, s.requests⟩

/-- N successive loader calls — the interleaving of N concurrent callers
demanding the index before the first resolution — collecting every
caller's outcome. -/
def loaderCalls {Data : Type} : Nat → LoaderState Data →
    LoaderState Data × List (LoaderOutcome Data)
  | 0, s => (s, [])
  | n + 1, s =>
    let c := loaderCall s
    let rest := loaderCalls n c.1
    (rest.1, c.2 :: rest.2)

/-- Calls against an in-flight promise change nothing and hand every caller
the same promise. -/
theorem loaderCalls_inflight {Data : Type} (pid r : Nat) :
    ∀ n : Nat, loaderCalls n (⟨none, some pid, r⟩ : LoaderState Data)
        = (⟨none, some pid, r⟩, List.replicate n (LoaderOutcome.await pid)) := by
  intro n
  induction n with
  | zero => rfl
  | succ n ih => simp [loaderCalls, loaderCall, ih, List.replicate]

/-- From a cold cache, the first call starts the only request and every
further call joins it. -/
theorem loaderCalls_cold {Data : Type} (n : Nat) :
    loaderCalls (n + 1) (coldLoader : LoaderState Data)
      = (⟨none, some 0, 1⟩,
         LoaderOutcome.await 0 :: List.replicate n (LoaderOutcome.await 0)) := by
  simp [loaderCalls, loaderCall, coldLoader, loaderCalls_inflight]

/-- C9: the index loader is single-flight: N concurrent callers on a cold
cache trigger exactly one network request and all await the same pending
result; after a failure the cache is still unset and the next call starts
a fresh request. -/
theorem claim_C9_single_flight :
    ∀ (Data : Type) (n : Nat), 1 ≤ n →
      (loaderCalls n (coldLoader : LoaderState Data)).1.requests = 1 ∧
      (∀ o ∈ (loaderCalls n (coldLoader : LoaderState Data)).2, o = LoaderOutcome.await 0) ∧
      (loaderReject (loaderCalls n (coldLoader : LoaderState Data)).1).cache = none ∧
      (loaderCall (loaderReject
          (loaderCalls n (coldLoader : LoaderState Data)).1)).1.requests = 2 := by
  intro _ n hn
  obtain ⟨m, rfl⟩ : ∃ m, n = m + 1 := ⟨n - 1, by omega⟩
  rw [loaderCalls_cold]
  refine ⟨rfl, ?_, rfl, rfl⟩
  intro o ho
  simp [List.mem_replicate] at ho
  rcases ho with h | h
  · exact h
  · exact h.2

/-- C9 witness: three concurrent callers on a cold cache of index rows. -/
theorem claim_C9_single_flight_witness :
    (loaderCalls 3 (coldLoader : LoaderState (List PokeApiListItem))).1.requests = 1 ∧
    (∀ o ∈ (loaderCalls 3 (coldLoader : LoaderState (List PokeApiListItem))).2,
        o = LoaderOutcome.await 0) ∧
    (loaderReject
        (loaderCalls 3 (coldLoader : LoaderState (List PokeApiListItem))).1).cache = none ∧
    (loaderCall (loaderReject
        (loaderCalls 3 (coldLoader : LoaderState (List PokeApiListItem))).1)).1.requests = 2 :=
  claim_C9_single_flight (List PokeApiListItem) 3 (by omega)

/-- Embeds `fetchPokemonById` as a computation over the entity cache and
the network outcome: the lowercased key is looked up in the cache first; on
a miss the detail response is normalized, and the catch block rethrows a
wrapped error, propagating the failure once to the caller. (The
write-through `cachePokemonCard` on success only feeds later lookups; the
returned value modelled here is unaffected by it.) -/
def fetchPokemonById (cache : List (String × JVal)) (id : String)
    (resp : Except Unit PokeApiPokemon) : Except Unit JVal :=
  match (cache.find? (fun kv => kv.1 == jsToLower id)).map (fun kv => kv.2) with
  | some card => .ok card
  | none =>
    match resp with
    | .ok data => .ok (mapPokemonToCard data)
    | .error _ => .error ()

/-- Embeds `searchPokemon` with the index load's outcome explicit: a blank
query resolves with no results before the index is demanded; a failed
index load is caught once and rethrown as a wrapped error; on success the
matches are resolved through the batch fetcher (whose per-item failures
never throw) and sorted by display name. -/
def searchPokemonE (indexResp : Except Unit (List PokeApiListItem))
    (fetch : PokeApiListItem → Option CardV) (query : String) :
    Except Unit (List CardV) :=
  let normalized := jsToLower (jsTrim query)
  if normalized = "" then .ok []
  else
    match indexResp with
    | .ok index =>
      .ok (jsSortBy (fun a b => strCompare a.name b.name)
        (fetchPokemonDetailsBatch fetch (index.filter (searchMatches normalized))))
    | .error _ => .error ()

/-- On a successful index load the error-aware search agrees with the
success-path model. -/
theorem searchPokemonE_ok (index : List PokeApiListItem)
    (fetch : PokeApiListItem → Option CardV) (q : String) :
    searchPokemonE (Except.ok index) fetch q
      = Except.ok (searchPokemon index fetch q) := by
  by_cases h : jsToLower (jsTrim q) = "" <;>
    simp [searchPokemonE, searchPokemon, h]

/-- C4 amended: the listing fetch, the detail fetch (on a cache miss, where
a request happens at all) and the search (on a non-blank query, where the
index is demanded) each surface a network failure once to the caller as an
error, without retrying; but `fetchTypes` and `fetchGenerations` swallow
the failure and resolve with the empty list: they never reject. -/
theorem claim_C4_amended :
    (fetchPokemon (Except.error ()) = Except.error () ∧
     ∀ r : PokeApiListResponse, fetchPokemon (Except.ok r) = Except.ok r) ∧
    (∀ (cache : List (String × JVal)) (id : String),
        cache.find? (fun kv => kv.1 == jsToLower id) = none →
        fetchPokemonById cache id (Except.error ()) = Except.error ()) ∧
    (∀ (fetch : PokeApiListItem → Option CardV) (q : String),
        jsToLower (jsTrim q) ≠ "" →
        searchPokemonE (Except.error ()) fetch q = Except.error ()) ∧
    (∀ resp : Except Unit (List PokeApiListItem),
        (∃ l, fetchTypes resp = Except.ok l) ∧
        (∃ l, fetchGenerations resp = Except.ok l)) ∧
    fetchTypes (Except.error ()) = Except.ok [] ∧
    fetchGenerations (Except.error ()) = Except.ok [] := by
  refine ⟨⟨rfl, fun r => rfl⟩, ?_, ?_, ?_, rfl, rfl⟩
  · intro cache id h
    simp [fetchPokemonById, h]
  · intro fetch q h
    simp [searchPokemonE, h]
  · intro resp
    cases resp <;> exact ⟨⟨_, rfl⟩, ⟨_, rfl⟩⟩

/-- C4 amended witness: a cache-miss detail fetch and a non-blank search
both turn a failed request into a propagated error. -/
theorem claim_C4_amended_witness :
    fetchPokemonById [] ("bulbasaur") (Except.error ()) = Except.error () ∧
    searchPokemonE (Except.error ()) (fun _ => some bulbaCard) ("bul")
      = Except.error () :=
  ⟨claim_C4_amended.2.1 [] ("bulbasaur") rfl,
   claim_C4_amended.2.2.1 (fun _ => some bulbaCard) ("bul") (by decide)⟩
